import Mathlib

/-!
Verification development for the note.svg drawing application.

The embedding below translates the document-editing core of the
application into Lean: the scene tree of renderable nodes, the
recursive filtering and clearing operations of `DocumentEditor`
(document-editor module), the path-data generation from strokes, the
per-pointer stroke session handling of `StrokeRenderer` (stroke.js),
and the small utility functions (utils.js).

External collaborators that are not part of the sources (the
kld-intersections geometry library, the fit-curve library loaded as
`window.fitCurve`, the txml parser, and the JavaScript primitive
number-to-string conversion used by template literals) are taken as
parameters of the embedded functions, so every theorem quantifies over
their behaviour.
-/

/-- A renderable scene-tree node (the `RenderNode` shape from stroke.js:
an element with a `tagName`, attributes and an ordered list of children,
or a bare text leaf).  Of the attributes only the path-data string `d`
(`attributes.d`) is observed by the operations under verification, so it
is the one attribute kept; for nodes other than paths it is unused.
Cached render attributes (`Path2D`, intersection shapes) are derived
caches with no influence on tree structure and are not modelled. -/
inductive RNode where
  | text (s : String) : RNode
  | node (tagName : String) (d : String) (children : List RNode) : RNode

/-- Tag name of a node; text leaves have none (empty string). -/
def tagOf : RNode → String
  | .text _ => ""
  | .node tag _ _ => tag

/-- The path-data attribute of a node. -/
def dOf : RNode → String
  | .text _ => ""
  | .node _ d _ => d

mutual
/-- DocumentEditor.filterIntersecting (document-editor module, lines
137-162).  Walks the children of `node`; a child whose tag is `path`
and whose cached shape intersects the eraser shape (the intersection
test of the external kld-intersections library is abstracted as the
predicate `hit` on the path-data string) is pushed onto the removed
list and, unless `keepIntersecting`, dropped from the child list; when
`recurse` the same filter runs on every child (the recursive call is
made with a fresh empty removed array whose contents are discarded).
Returns the rewritten node together with the removed list.  A string
node is returned unchanged with nothing removed. -/
def filterIntersecting (hit : String → Bool) (keep recurse : Bool) :
    RNode → RNode × List RNode
  | .text s => (.text s, [])
  | .node tag d cs =>
      let p := filterChildren hit keep recurse cs
      (.node tag d p.1, p.2)

/-- The `node.children = node.children.filter(...)` loop inside
`filterIntersecting`, in child-list order. -/
def filterChildren (hit : String → Bool) (keep recurse : Bool) :
    List RNode → List RNode × List RNode
  | [] => ([], [])
  | .text s :: rest =>
      let p := filterChildren hit keep recurse rest
      (.text s :: p.1, p.2)
  | .node tag d ch :: rest =>
      let hits := tag == "path" && hit d
      let c' := if recurse then (filterIntersecting hit keep recurse (.node tag d ch)).1
                else .node tag d ch
      let p := filterChildren hit keep recurse rest
      ((if keep || !hits then c' :: p.1 else p.1),
       (if hits then c' :: p.2 else p.2))
end

mutual
/-- DocumentEditor.clearPaths (document-editor module, lines 189-215).
Walks the children of `node`; every child tagged `path` is pushed onto
the removed list and dropped (without visiting its own children); every
other non-string child is recursively cleared when `recurse`, with the
removals accumulated into the same list.  The JavaScript guard for a
missing `children` array cannot fire here because children are always a
list in the embedding. -/
def clearPaths (recurse : Bool) : RNode → RNode × List RNode
  | .text s => (.text s, [])
  | .node tag d cs =>
      let p := clearChildren recurse cs
      (.node tag d p.1, p.2)

/-- The `node.children = node.children.filter(...)` loop inside
`clearPaths`, in child-list order. -/
def clearChildren (recurse : Bool) : List RNode → List RNode × List RNode
  | [] => ([], [])
  | .text s :: rest =>
      let p := clearChildren recurse rest
      (.text s :: p.1, p.2)
  | .node tag d ch :: rest =>
      if tag == "path" then
        let p := clearChildren recurse rest
        (p.1, .node tag d ch :: p.2)
      else
        let q := if recurse then clearPaths recurse (.node tag d ch)
                 else (.node tag d ch, [])
        let p := clearChildren recurse rest
        (q.1 :: p.1, q.2 ++ p.2)
end

/-- Decides whether a node is a `path` child whose intersection test is
positive, exactly the condition under which `filterIntersecting`
collects it. -/
def isHitPath (hit : String → Bool) : RNode → Bool
  | .text _ => false
  | .node tag d _ => tag == "path" && hit d

mutual
/-- Number of nodes in a tree that are not `path` elements, counting
string text leaves. -/
def countNonPath : RNode → Nat
  | .text _ => 1
  | .node tag _ cs => (if tag == "path" then 0 else 1) + countNonPathList cs

/-- Sum of `countNonPath` over a child list. -/
def countNonPathList : List RNode → Nat
  | [] => 0
  | c :: rest => countNonPath c + countNonPathList rest
end

mutual
/-- The data-model invariant that `path` nodes are leaves (a Path node
has no children), at every depth of the tree. -/
def pathsChildless : RNode → Bool
  | .text _ => true
  | .node tag _ cs => (tag != "path" || cs.isEmpty) && pathsChildlessList cs

/-- `pathsChildless` over a child list. -/
def pathsChildlessList : List RNode → Bool
  | [] => true
  | c :: rest => pathsChildless c && pathsChildlessList rest
end

mutual
/-- No node reachable as a child (at any depth) carries the `path` tag. -/
def noPathsBelow : RNode → Bool
  | .text _ => true
  | .node _ _ cs => noPathsBelowList cs

/-- `noPathsBelow` over a child list: no listed node is a `path` and
none has a `path` below it. -/
def noPathsBelowList : List RNode → Bool
  | [] => true
  | c :: rest => !(tagOf c == "path") && noPathsBelow c && noPathsBelowList rest
end

/-- roundNumber (utils.js, lines 14-16): `num.toFixed(decimals)` with
the default `decimals = 1`, the only arity the editor uses.  Always
prints exactly one digit after the decimal point.  `toFixed` rounds to
the nearest representable value; ties (exact `.x5` values, which binary
floating point almost never produces) are modelled as rounding toward
positive infinity, and a result rounding to zero from below drops the
JavaScript negative sign of `-0.0`. -/
def roundNumber (q : ℚ) : String :=
  let n : ℤ := Rat.floor (q * 10 + 1 / 2)
  let sign := if n < 0 then "-" else ""
  sign ++ toString (n.natAbs / 10) ++ "." ++ toString (n.natAbs % 10)

/-- Models the JavaScript string `trim()` method: strip leading and
trailing whitespace. -/
def jsTrim (s : String) : String :=
  ⟨((s.data.dropWhile Char.isWhitespace).reverse.dropWhile
      Char.isWhitespace).reverse⟩

/-- Models the JavaScript string method testing for a leading
occurrence of `pre`. -/
def jsStartsWith (s pre : String) : Bool :=
  List.isPrefixOf pre.data s.data

/-- Models the JavaScript string method testing for a trailing
occurrence of `suf`. -/
def jsEndsWith (s suf : String) : Bool :=
  List.isPrefixOf suf.data.reverse s.data.reverse

/-- Models the JavaScript `split(sep)` method for a one-character
separator: the fields between occurrences of `sep`, so a string
without the separator yields the one-element list of itself and the
empty string yields `[""]`. -/
def jsSplitOnChar (sep : Char) (s : String) : List String :=
  splitAux s.data []
where
  /-- Walks the character list, accumulating the current field in
  reverse. -/
  splitAux : List Char → List Char → List String
    | [], acc => [⟨acc.reverse⟩]
    | c :: rest, acc =>
        if c = sep then (⟨acc.reverse⟩ : String) :: splitAux rest []
        else splitAux rest (c :: acc)

/-- isValidSvg (utils.js, lines 23-25): the trimmed text must start
with the opening root tag and end with the closing root tag. -/
def isValidSvg (text : String) : Bool :=
  jsStartsWith (jsTrim text) "<svg" && jsEndsWith (jsTrim text) "</svg>"

/-- Models JavaScript `parseInt(str)`: leading whitespace is skipped,
an optional sign is read, then the maximal run of leading decimal
digits; the result is `none` (NaN) when no digit is read.  The
hexadecimal `0x` prefix of `parseInt` cannot arise at its call site in
`parseSizeString` because the fields come from splitting on the
character `x` and therefore contain no `x`. -/
def jsParseInt (s : String) : Option Int :=
  let body :=
    match (jsTrim s).data with
    | '-' :: rest => (true, rest)
    | '+' :: rest => (false, rest)
    | l => (false, l)
  let ds := body.2.takeWhile (·.isDigit)
  if ds.isEmpty then none
  else
    let n : Nat := ds.foldl (fun acc c => acc * 10 + (c.toNat - '0'.toNat)) 0
    some (if body.1 then -(n : Int) else (n : Int))

/-- The `{width, height}` record returned by `parseSizeString`. -/
structure SizeWH where
  width : Int
  height : Int

/-- parseSizeString (utils.js, lines 54-65): split on `x`, parse the
first two fields with `parseInt` after trimming, return the pair when
both parse and `null` (here `none`) otherwise.  The `|| []` fallback on
`split` in the source is dead code since `split` never returns a falsy
value. -/
def parseSizeString (sizeStr : String) : Option SizeWH :=
  match ((jsSplitOnChar 'x' sizeStr)[0]?).bind (fun t => jsParseInt (jsTrim t)),
        ((jsSplitOnChar 'x' sizeStr)[1]?).bind (fun t => jsParseInt (jsTrim t)) with
  | some w, some h => some ⟨w, h⟩
  | _, _ => none

/-- deserializeDocument (main module, lines 52-71): reject the string
with an error unless `isValidSvg` accepts it, then parse it (txml,
abstracted as `parse`), take the first parsed node, transform it
in place (the `transform` of the notesvg module, abstracted as
`transf`) and return it; an empty parse result is an error. -/
def deserializeDocument {α : Type} (parse : String → List α) (transf : α → α)
    (svgString : String) : Except String α :=
  if !isValidSvg svgString then .error "Invalid SVG string"
  else
    match parse svgString with
    | [] => .error "Failed to parse SVG"
    | n :: _ => .ok (transf n)

/-- A captured pointer position. -/
abbrev Point := ℚ × ℚ

/-- One cubic Bezier segment as returned by the external fit-curve
library: the array `[startPoint, control1, control2, endPoint]`. -/
structure CubicBez where
  p0 : Point
  p1 : Point
  p2 : Point
  p3 : Point

/-- One `C` command piece of the path string built by
`generatePathData`: the two control points and the end point of a
segment, every coordinate rounded by `roundNumber`. -/
def curveCmd (c : CubicBez) : String :=
  "C " ++ roundNumber c.p1.1 ++ " " ++ roundNumber c.p1.2 ++ ", "
    ++ roundNumber c.p2.1 ++ " " ++ roundNumber c.p2.2 ++ ", "
    ++ roundNumber c.p3.1 ++ " " ++ roundNumber c.p3.2 ++ " "

/-- DocumentEditor.generatePathData (document-editor module, lines
82-126).  Returns the empty string for strokes of fewer than two
points.  Otherwise runs the external curve fitter (`window.fitCurve`
with `maxError = 2.0`, abstracted as `fit`; an exception thrown by it
is the `Except.error` case): on a non-empty fit, emits a move-to at the
start point of the first returned curve followed by one `C` command per
curve, all coordinates rounded; on an empty fit, falls back to a
move-to plus line-to polyline with rounded coordinates; on an
exception, falls back to the same polyline rendered with the raw
template-literal number conversion (abstracted as `numStr`), which the
catch branch uses instead of `roundNumber`. -/
def generatePathData (numStr : ℚ → String)
    (fit : List Point → Except Unit (List CubicBez)) :
    List Point → String
  | [] => ""
  | [_] => ""
  | s0 :: s1 :: srest =>
      match fit (s0 :: s1 :: srest) with
      | .ok (firstCurve :: more) =>
          (firstCurve :: more).foldl (fun d c => d ++ curveCmd c)
            ("M " ++ roundNumber firstCurve.p0.1 ++ " "
              ++ roundNumber firstCurve.p0.2 ++ " ")
      | .ok [] =>
          (s1 :: srest).foldl
            (fun d p => d ++ ("L " ++ roundNumber p.1 ++ " " ++ roundNumber p.2 ++ " "))
            ("M " ++ roundNumber s0.1 ++ " " ++ roundNumber s0.2 ++ " ")
      | .error _ =>
          (s1 :: srest).foldl
            (fun d p => d ++ ("L " ++ numStr p.1 ++ " " ++ numStr p.2 ++ " "))
            ("M " ++ numStr s0.1 ++ " " ++ numStr s0.2 ++ " ")

/-- Concatenation of the renderings of a list, left to right. -/
def catMap {α : Type} (g : α → String) : List α → String
  | [] => ""
  | x :: xs => g x ++ catMap g xs

/-- The encoder shape the specification describes for a fitted stroke:
one leading move-to at the start point of the first segment, then one
cubic-curve command per segment, every numeric value rounded to one
decimal place by `roundNumber`. -/
def encodeSpec : List CubicBez → String
  | [] => ""
  | c :: cs =>
      "M " ++ roundNumber c.p0.1 ++ " " ++ roundNumber c.p0.2 ++ " "
        ++ catMap curveCmd (c :: cs)

/-- The polyline fallback shape the specification describes: a move-to
at the first point followed by one line-to per remaining point, each
coordinate rendered by `f`. -/
def encodePolylineSpec (f : ℚ → String) : List Point → String
  | [] => ""
  | p :: ps =>
      "M " ++ f p.1 ++ " " ++ f p.2 ++ " "
        ++ catMap (fun q => "L " ++ f q.1 ++ " " ++ f q.2 ++ " ") ps

/-- A drawing tool (stroke.js typedefs): a pen with colour, diameter
and tolerance, or an eraser with a diameter.  The `type` field of the
source is the constructor. -/
inductive Tool where
  | pen (color : String) (diameter tolerance : ℚ)
  | eraser (diameter : ℚ)

/-- One live session of `StrokeRenderer.liveStrokes`: the tool
snapshot taken at `beginStroke` and the accumulated stroke points. -/
structure LiveStroke where
  tool : Tool
  stroke : List Point

/-- The mutable state the stroke handlers touch: the document tree and
the per-pointer live-session map (`this.liveStrokes`), as an
association list keyed by pointer id.  Canvas contexts are presentation
state with no effect on document or sessions and are not modelled. -/
structure EditorState where
  doc : RNode
  live : List (Nat × LiveStroke)

/-- Property read `this.liveStrokes[id]`. -/
def getKey (k : Nat) : List (Nat × LiveStroke) → Option LiveStroke
  | [] => none
  | (k', v) :: rest => if k = k' then some v else getKey k rest

/-- Property write `this.liveStrokes[id] = v` for a present key: the
first binding of `k` is replaced in place. -/
def updKey (k : Nat) (v : LiveStroke) :
    List (Nat × LiveStroke) → List (Nat × LiveStroke)
  | [] => []
  | (k', v') :: rest =>
      if k = k' then (k, v) :: rest else (k', v') :: updKey k v rest

/-- Property removal `delete this.liveStrokes[id]`. -/
def delKey (k : Nat) : List (Nat × LiveStroke) → List (Nat × LiveStroke)
  | [] => []
  | (k', v) :: rest =>
      if k = k' then delKey k rest else (k', v) :: delKey k rest

/-- DocumentEditor.createPathFromStroke (document-editor module, lines
40-55): a fresh `path` element whose `d` attribute is the generated
path data and which has no children.  The styling attributes
(`fill`, tool colour and diameter) and the render caches are outside
the modelled node attributes. -/
def createPathFromStroke (numStr : ℚ → String)
    (fit : List Point → Except Unit (List CubicBez)) (stroke : List Point) : RNode :=
  .node "path" (generatePathData numStr fit stroke) []

/-- DocumentEditor.addPathToDocument (document-editor module, lines
61-63): `this.document.children.push(pathNode)`.  The document root is
an element node; a text root is returned unchanged (the source would
fail loudly there). -/
def addPathToDocument (pathNode : RNode) : RNode → RNode
  | .text s => .text s
  | .node tag d cs => .node tag d (cs ++ [pathNode])

/-- DocumentEditor.processEraserStroke (document-editor module, lines
170-179): build the line shape for the segment and filter the whole
document against it with the default `keepIntersecting = false`,
`recurse = true`.  The kld-intersections line/path test is abstracted
as `inter start stop d`. -/
def processEraserStroke (inter : Point → Point → String → Bool)
    (start stop : Point) (doc : RNode) : RNode × List RNode :=
  filterIntersecting (inter start stop) false true doc

/-- StrokeRenderer.moveStroke (stroke.js, lines 300-321), document and
session effect (canvas drawing omitted).  Looks up the live session of
the pointer id and returns the state unchanged when there is none; for
an eraser session with at least one accumulated point, the document is
filtered against the segment from the last accumulated point to the new
point before the point is appended; the new point is appended to the
session stroke. -/
def moveStroke (inter : Point → Point → String → Bool) (id : Nat) (p : Point)
    (st : EditorState) : EditorState :=
  match getKey id st.live with
  | none => st
  | some ls =>
      let doc' :=
        match ls.tool, ls.stroke.getLast? with
        | .eraser _, some latestStart =>
            (processEraserStroke inter latestStart p st.doc).1
        | _, _ => st.doc
      { doc := doc',
        live := updKey id { ls with stroke := ls.stroke ++ [p] } st.live }

/-- StrokeRenderer.endStroke (stroke.js, lines 328-351), document and
session effect.  First performs the final `moveStroke`, then reads
`this.liveStrokes[id]` by destructuring; when no session exists that
destructuring of `undefined` throws a TypeError, modelled as the error
case.  For a pen session whose stroke now has at least two points, the
finalized path is appended to the document
(`DocumentEditor.finalizePenStroke`, document-editor module lines
71-75); for an eraser session the document is left as the final
`moveStroke` produced it.  The session entry is then deleted. -/
def endStroke (inter : Point → Point → String → Bool) (numStr : ℚ → String)
    (fit : List Point → Except Unit (List CubicBez)) (id : Nat) (p : Point)
    (st : EditorState) : Except String EditorState :=
  let s1 := moveStroke inter id p st
  match getKey id s1.live with
  | none => .error "TypeError"
  | some ls =>
      let doc' :=
        match ls.tool with
        | .pen _ _ _ =>
            if 2 ≤ ls.stroke.length then
              addPathToDocument (createPathFromStroke numStr fit ls.stroke) s1.doc
            else s1.doc
        | .eraser _ => s1.doc
      .ok { doc := doc', live := delKey id s1.live }

/-- The document root as the resize handler sees it: the `svg` element
with its width and height (the `noteSvgAttributes` of the root), its
passthrough attributes, and its children. -/
structure SvgDoc where
  tagName : String
  attributes : List (String × String)
  width : Int
  height : Int
  children : List RNode

/-- The document effect of the setupResizeButton click handler (ui.js,
lines 298-311): parse the prompted size string; when it parses, assign
the width and height of the root and leave everything else alone; when
it does not, change nothing.  The subsequent `updateDocument` call only
redraws, resizes canvases and saves; it does not touch the tree. -/
def applyResize (doc : SvgDoc) (sizeStr : String) : SvgDoc :=
  match parseSizeString sizeStr with
  | some sz => { doc with width := sz.width, height := sz.height }
  | none => doc

/-- Unfolding of `filterIntersecting` at an element node. -/
theorem filterIntersecting_node_eq (hit : String → Bool) (keep recurse : Bool)
    (tag d : String) (cs : List RNode) :
    filterIntersecting hit keep recurse (.node tag d cs)
      = (.node tag d (filterChildren hit keep recurse cs).1,
         (filterChildren hit keep recurse cs).2) := rfl

/-- C1: `filterIntersecting` with `keepIntersecting = false` does not
return Path nodes excised from nested surviving subtrees: at the tree
`svg [g [path X], path X]` with a test hitting every `path X`, the
nested path is excised from the group (the group ends up empty) yet the
returned removed list holds only the top-level path, not the pre-order
list of both removed paths. -/
theorem filterIntersecting_nested_excluded :
    (filterIntersecting (fun d => d == "X") false true
        (.node "svg" "" [.node "g" "" [.node "path" "X" []], .node "path" "X" []])).1
      = .node "svg" "" [.node "g" "" []]
    ∧ (filterIntersecting (fun d => d == "X") false true
        (.node "svg" "" [.node "g" "" [.node "path" "X" []], .node "path" "X" []])).2
      = [.node "path" "X" []]
    ∧ (filterIntersecting (fun d => d == "X") false true
        (.node "svg" "" [.node "g" "" [.node "path" "X" []], .node "path" "X" []])).2
      ≠ [.node "path" "X" [], .node "path" "X" []] :=
  ⟨rfl, rfl, fun hEq => absurd (congrArg List.length hEq) (by decide)⟩

/-- C1 (amended): with `keepIntersecting = false` and `recurse = true`,
the returned list is exactly the direct children of the node that are
`path` nodes with a positive intersection test, in child-list order,
each carrying its recursively filtered subtree; removals inside nested
surviving subtrees are applied to the tree but not collected. -/
theorem filterIntersecting_removed_direct (hit : String → Bool) (tag d : String)
    (cs : List RNode) :
    (filterIntersecting hit false true (.node tag d cs)).2
      = (cs.filter (isHitPath hit)).map
          (fun c => (filterIntersecting hit false true c).1) := by
  show (filterChildren hit false true cs).2 = _
  induction cs with
  | nil => rfl
  | cons c rest ih =>
      cases c with
      | text s =>
          simpa [filterChildren, isHitPath] using ih
      | node t2 d2 ch =>
          by_cases hp : (t2 == "path" && hit d2) = true
          · simp [filterChildren, isHitPath, hp, ih]
          · simp [filterChildren, isHitPath, hp, ih]

mutual
/-- After one recursive `clearPaths` pass no `path` node remains
anywhere below the result. -/
theorem clearPaths_noPathsBelow (t : RNode) :
    noPathsBelow (clearPaths true t).1 = true := by
  cases t with
  | text s => rfl
  | node tag d cs =>
      simp [clearPaths, noPathsBelow, clearChildren_noPathsBelow cs]

/-- List form of `clearPaths_noPathsBelow`. -/
theorem clearChildren_noPathsBelow (cs : List RNode) :
    noPathsBelowList (clearChildren true cs).1 = true := by
  cases cs with
  | nil => rfl
  | cons c rest =>
      cases c with
      | text s =>
          simp [clearChildren, noPathsBelowList, tagOf, noPathsBelow,
                clearChildren_noPathsBelow rest]
      | node tag d ch =>
          by_cases h : (tag == "path") = true
          · simp [clearChildren, h, clearChildren_noPathsBelow rest]
          · simp only [beq_iff_eq] at h
            simp [clearChildren, h, clearPaths, noPathsBelowList, tagOf,
                  noPathsBelow, clearChildren_noPathsBelow ch,
                  clearChildren_noPathsBelow rest]
end

mutual
/-- A second recursive `clearPaths` pass removes nothing. -/
theorem clearPaths_again (t : RNode) :
    (clearPaths true (clearPaths true t).1).2 = [] := by
  cases t with
  | text s => rfl
  | node tag d cs =>
      simp [clearPaths, clearChildren_again cs]

/-- List form of `clearPaths_again`. -/
theorem clearChildren_again (cs : List RNode) :
    (clearChildren true (clearChildren true cs).1).2 = [] := by
  cases cs with
  | nil => rfl
  | cons c rest =>
      cases c with
      | text s => simp [clearChildren, clearChildren_again rest]
      | node tag d ch =>
          by_cases h : (tag == "path") = true
          · simp [clearChildren, h, clearChildren_again rest]
          · simp [clearChildren, h, clearPaths, clearChildren_again ch,
                  clearChildren_again rest]
end

/-- C6: the first recursive `clearPaths` pass removes every `path`
node, so calling `clearPaths` twice in succession on the same node
returns an empty removed list the second time. -/
theorem clearPaths_idempotent_removals (t : RNode) :
    noPathsBelow (clearPaths true t).1 = true
    ∧ (clearPaths true (clearPaths true t).1).2 = [] :=
  ⟨clearPaths_noPathsBelow t, clearPaths_again t⟩

/-- C7: removing an intersecting `path` node discards its whole
subtree, so on a tree violating the Path-nodes-are-leaves invariant
(here a `path` carrying a text leaf) the total non-Path node count does
drop: the claim fails as stated over every tree. -/
theorem filterIntersecting_nonPath_count_drop :
    countNonPath (filterIntersecting (fun d => d == "X") false true
        (.node "svg" "" [.node "path" "X" [.text "note"]])).1
      ≠ countNonPath (.node "svg" "" [.node "path" "X" [.text "note"]]) := by
  decide

mutual
/-- On trees whose `path` nodes are childless, the destructive filter
leaves the number of non-path nodes (text leaves included) unchanged. -/
theorem filterIntersecting_countNonPath (hit : String → Bool) (t : RNode)
    (hinv : pathsChildless t = true) :
    countNonPath (filterIntersecting hit false true t).1 = countNonPath t := by
  cases t with
  | text s => rfl
  | node tag d cs =>
      have hcs : pathsChildlessList cs = true := by
        simp only [pathsChildless, Bool.and_eq_true] at hinv
        exact hinv.2
      simp [filterIntersecting, countNonPath,
            filterChildren_countNonPath hit cs hcs]

/-- List form of `filterIntersecting_countNonPath`. -/
theorem filterChildren_countNonPath (hit : String → Bool) (cs : List RNode)
    (hinv : pathsChildlessList cs = true) :
    countNonPathList (filterChildren hit false true cs).1 = countNonPathList cs := by
  cases cs with
  | nil => rfl
  | cons c rest =>
      have h1 : pathsChildless c = true := by
        simp only [pathsChildlessList, Bool.and_eq_true] at hinv
        exact hinv.1
      have h2 : pathsChildlessList rest = true := by
        simp only [pathsChildlessList, Bool.and_eq_true] at hinv
        exact hinv.2
      cases c with
      | text s =>
          simp [filterChildren, countNonPathList,
                filterChildren_countNonPath hit rest h2]
      | node t2 d2 ch =>
          by_cases hp : (t2 == "path" && hit d2) = true
          · have ht2 : (t2 == "path") = true := (Bool.and_eq_true .. |>.mp hp).1
            have hch : ch = [] := by
              simp only [pathsChildless, Bool.and_eq_true, Bool.or_eq_true,
                         bne_iff_ne, ne_eq, List.isEmpty_iff] at h1
              rcases h1.1 with h | h
              · exact absurd (by simpa using ht2) h
              · exact h
            subst hch
            have hhit : hit d2 = true := (Bool.and_eq_true .. |>.mp hp).2
            simp [filterChildren, ht2, hhit, countNonPathList, countNonPath,
                  filterChildren_countNonPath hit rest h2]
          · simp [filterChildren, hp, countNonPathList,
                  filterIntersecting_countNonPath hit (.node t2 d2 ch) h1,
                  filterChildren_countNonPath hit rest h2]
end

/-- Every node the child filter collects is a `path` whose intersection
test was positive (list form, unconditional). -/
theorem filterChildren_removed_hit (hit : String → Bool) (cs : List RNode) :
    ∀ r ∈ (filterChildren hit false true cs).2, isHitPath hit r = true := by
  induction cs with
  | nil => intro r hr; cases hr
  | cons c rest ih =>
      cases c with
      | text s => simpa [filterChildren] using ih
      | node t2 d2 ch =>
          by_cases hp : (t2 == "path" && hit d2) = true
          · intro r hr
            simp only [filterChildren, hp, if_pos, if_true, List.mem_cons] at hr
            rcases hr with h | h
            · rw [h]
              simp [filterIntersecting, isHitPath, hp]
            · exact ih r h
          · intro r hr
            simp only [filterChildren, hp, if_false, Bool.false_eq_true,
                       if_neg, not_false_iff] at hr
            exact ih r hr

/-- Every node `filterIntersecting` collects is a `path` whose
intersection test was positive. -/
theorem filterIntersecting_removed_hit (hit : String → Bool) (t : RNode) :
    ∀ r ∈ (filterIntersecting hit false true t).2, isHitPath hit r = true := by
  cases t with
  | text s => intro r hr; cases hr
  | node tag d cs => exact filterChildren_removed_hit hit cs

/-- C7 (amended): on trees satisfying the data-model invariant that
Path nodes have no children, `filterIntersecting` with
`keepIntersecting = false` leaves the total count of non-Path nodes
(string text leaves included) unchanged, and every node it removes is a
`path` node whose intersection test against the segment was positive. -/
theorem filterIntersecting_preserves_nonPath (hit : String → Bool) (t : RNode)
    (hinv : pathsChildless t = true) :
    countNonPath (filterIntersecting hit false true t).1 = countNonPath t
    ∧ ∀ r ∈ (filterIntersecting hit false true t).2, isHitPath hit r = true :=
  ⟨filterIntersecting_countNonPath hit t hinv,
   filterIntersecting_removed_hit hit t⟩

/-- Witness for C7 (amended) at a concrete two-child document. -/
theorem filterIntersecting_preserves_nonPath_witness :
    pathsChildless (.node "svg" "" [.node "path" "X" [], .text "note"]) = true
    ∧ (countNonPath (filterIntersecting (fun d => d == "X") false true
          (.node "svg" "" [.node "path" "X" [], .text "note"])).1
        = countNonPath (.node "svg" "" [.node "path" "X" [], .text "note"])
       ∧ ∀ r ∈ (filterIntersecting (fun d => d == "X") false true
            (.node "svg" "" [.node "path" "X" [], .text "note"])).2,
          isHitPath (fun d => d == "X") r = true) :=
  ⟨rfl, filterIntersecting_preserves_nonPath _ _ rfl⟩

/-- Updating a present key makes lookup return the new value. -/
theorem getKey_updKey_self (k : Nat) (v : LiveStroke)
    (l : List (Nat × LiveStroke)) (w : LiveStroke)
    (hw : getKey k l = some w) : getKey k (updKey k v l) = some v := by
  induction l with
  | nil => cases hw
  | cons e rest ih =>
      obtain ⟨k', v'⟩ := e
      by_cases h : k = k'
      · subst h; simp [updKey, getKey]
      · simp only [getKey, updKey, if_neg h] at hw ⊢
        exact ih hw

/-- Deleting a key makes lookup miss. -/
theorem getKey_delKey_self (k : Nat) (l : List (Nat × LiveStroke)) :
    getKey k (delKey k l) = none := by
  induction l with
  | nil => rfl
  | cons e rest ih =>
      obtain ⟨k', v'⟩ := e
      by_cases h : k = k'
      · subst h; simp [delKey, ih]
      · simp [delKey, getKey, h, ih]

/-- `moveStroke` on a present session: the session map gets the new
point appended to that session's stroke. -/
theorem moveStroke_live_eq (inter : Point → Point → String → Bool) (id : Nat)
    (p : Point) (st : EditorState) (tool : Tool) (stroke : List Point)
    (hs : getKey id st.live = some ⟨tool, stroke⟩) :
    (moveStroke inter id p st).live
      = updKey id ⟨tool, stroke ++ [p]⟩ st.live := by
  simp [moveStroke, hs]

/-- `moveStroke` for a pen session never touches the document. -/
theorem moveStroke_doc_pen (inter : Point → Point → String → Bool) (id : Nat)
    (p : Point) (st : EditorState) (c : String) (dia tol : ℚ)
    (stroke : List Point)
    (hs : getKey id st.live = some ⟨.pen c dia tol, stroke⟩) :
    (moveStroke inter id p st).doc = st.doc := by
  simp [moveStroke, hs]

/-- Evaluation of `endStroke` on a live pen session whose final stroke
has at least two points. -/
theorem endStroke_eval_pen (inter : Point → Point → String → Bool)
    (numStr : ℚ → String) (fit : List Point → Except Unit (List CubicBez))
    (id : Nat) (p : Point) (st : EditorState) (c : String) (dia tol : ℚ)
    (stroke : List Point)
    (hs : getKey id st.live = some ⟨.pen c dia tol, stroke⟩)
    (hlen : 2 ≤ (stroke ++ [p]).length) :
    endStroke inter numStr fit id p st
      = .ok { doc := addPathToDocument
                  (createPathFromStroke numStr fit (stroke ++ [p]))
                  (moveStroke inter id p st).doc,
              live := delKey id (moveStroke inter id p st).live } := by
  have h2 : getKey id (moveStroke inter id p st).live
      = some ⟨.pen c dia tol, stroke ++ [p]⟩ := by
    rw [moveStroke_live_eq inter id p st _ _ hs]
    exact getKey_updKey_self id _ st.live _ hs
  simp only [endStroke, h2]
  rw [if_pos hlen]

/-- Evaluation of `endStroke` on a live eraser session: the document is
exactly what the final `moveStroke` left. -/
theorem endStroke_eval_eraser (inter : Point → Point → String → Bool)
    (numStr : ℚ → String) (fit : List Point → Except Unit (List CubicBez))
    (id : Nat) (p : Point) (st : EditorState) (dia : ℚ) (stroke : List Point)
    (hs : getKey id st.live = some ⟨.eraser dia, stroke⟩) :
    endStroke inter numStr fit id p st
      = .ok { doc := (moveStroke inter id p st).doc,
              live := delKey id (moveStroke inter id p st).live } := by
  have h2 : getKey id (moveStroke inter id p st).live
      = some ⟨.eraser dia, stroke ++ [p]⟩ := by
    rw [moveStroke_live_eq inter id p st _ _ hs]
    exact getKey_updKey_self id _ st.live _ hs
  simp [endStroke, h2]

/-- C2: for an identifier with no live session, `moveStroke` (extend)
returns the state unchanged, but `endStroke` (end) errors: the source
destructures `this.liveStrokes[id]`, which is `undefined`, and throws a
TypeError instead of being a no-op. -/
theorem idle_extend_noop_end_throws :
    moveStroke (fun _ _ _ => false) 7 ((1 : ℚ), (2 : ℚ))
        { doc := .node "svg" "" [], live := [] }
      = { doc := .node "svg" "" [], live := [] }
    ∧ endStroke (fun _ _ _ => false) (fun _ => "") (fun _ => .ok []) 7
        ((1 : ℚ), (2 : ℚ)) { doc := .node "svg" "" [], live := [] }
      = .error "TypeError" :=
  ⟨rfl, rfl⟩

/-- C5: ending a live session first applies the final extend, then for
a pen session with at least one accumulated point (hence at least two
after the final extend) appends exactly one new `path` node to the
document root; for an eraser session the document stays exactly as the
final extend left it; in both cases the session entry is deleted, so
the identifier is Idle and its accumulated points are gone. -/
theorem endStroke_finalizes (inter : Point → Point → String → Bool)
    (numStr : ℚ → String) (fit : List Point → Except Unit (List CubicBez))
    (id : Nat) (p : Point) (st : EditorState) (tool : Tool)
    (stroke : List Point)
    (hs : getKey id st.live = some ⟨tool, stroke⟩) :
    ∃ st', endStroke inter numStr fit id p st = .ok st'
      ∧ getKey id st'.live = none
      ∧ (∀ c dia tol, tool = .pen c dia tol → 1 ≤ stroke.length →
          st'.doc = addPathToDocument
              (createPathFromStroke numStr fit (stroke ++ [p])) st.doc)
      ∧ (∀ dia, tool = .eraser dia →
          st'.doc = (moveStroke inter id p st).doc) := by
  cases tool with
  | pen c dia tol =>
      by_cases hlen : 1 ≤ stroke.length
      · have hlen2 : 2 ≤ (stroke ++ [p]).length := by
          simp only [List.length_append, List.length_cons, List.length_nil]
          omega
        refine ⟨_, endStroke_eval_pen inter numStr fit id p st c dia tol
                  stroke hs hlen2, getKey_delKey_self id _, ?_, ?_⟩
        · intro c' dia' tol' ht _
          cases ht
          simp [moveStroke_doc_pen inter id p st c dia tol stroke hs]
        · intro dia' ht
          cases ht
      · have hnil : stroke = [] := by
          cases stroke with
          | nil => rfl
          | cons a as => exact absurd (by simp) hlen
        subst hnil
        have h2 : getKey id (moveStroke inter id p st).live
            = some ⟨.pen c dia tol, [p]⟩ := by
          rw [moveStroke_live_eq inter id p st _ _ hs]
          exact getKey_updKey_self id _ st.live _ hs
        refine ⟨{ doc := (moveStroke inter id p st).doc,
                  live := delKey id (moveStroke inter id p st).live },
                by simp [endStroke, h2], getKey_delKey_self id _, ?_, ?_⟩
        · intro c' dia' tol' _ habs
          simp at habs
        · intro dia' ht
          cases ht
  | eraser dia =>
      refine ⟨_, endStroke_eval_eraser inter numStr fit id p st dia stroke hs,
              getKey_delKey_self id _, ?_, ?_⟩
      · intro c' dia' tol' ht
        cases ht
      · intro dia' ht
        rfl

/-- Witness for C5 at a one-session pen state with one accumulated
point. -/
theorem endStroke_finalizes_witness :
    getKey 3 [(3, (⟨.pen "#000" 2 (3 / 2), [((0 : ℚ), (0 : ℚ))]⟩ : LiveStroke))]
      = some ⟨.pen "#000" 2 (3 / 2), [((0 : ℚ), (0 : ℚ))]⟩
    ∧ ∃ st', endStroke (fun _ _ _ => false) (fun _ => "") (fun _ => .ok []) 3
          ((2 : ℚ), (2 : ℚ))
          { doc := .node "svg" "" [],
            live := [(3, ⟨.pen "#000" 2 (3 / 2), [((0 : ℚ), (0 : ℚ))]⟩)] }
        = .ok st'
      ∧ getKey 3 st'.live = none
      ∧ (∀ c dia tol, (Tool.pen "#000" 2 (3 / 2)) = .pen c dia tol →
          1 ≤ ([((0 : ℚ), (0 : ℚ))] : List Point).length →
          st'.doc = addPathToDocument
              (createPathFromStroke (fun _ => "") (fun _ => .ok [])
                ([((0 : ℚ), (0 : ℚ))] ++ [((2 : ℚ), (2 : ℚ))]))
              (RNode.node "svg" "" []))
      ∧ (∀ dia, (Tool.pen "#000" 2 (3 / 2)) = .eraser dia →
          st'.doc = (moveStroke (fun _ _ _ => false) 3 ((2 : ℚ), (2 : ℚ))
              { doc := .node "svg" "" [],
                live := [(3, ⟨.pen "#000" 2 (3 / 2),
                  [((0 : ℚ), (0 : ℚ))]⟩)] }).doc) :=
  ⟨rfl, endStroke_finalizes _ _ _ _ _ _ _ _ rfl⟩

/-- Left-appending fold of renderings equals the initial string
followed by their concatenation. -/
theorem foldl_append_catMap {α : Type} (g : α → String) (l : List α)
    (init : String) :
    l.foldl (fun d x => d ++ g x) init = init ++ catMap g l := by
  induction l generalizing init with
  | nil => simp [catMap]
  | cons x xs ih => simp [catMap, ih, String.append_assoc]

/-- C3: for a stroke of at least two points, when the fitter returns a
non-empty curve list the generated path data is one leading move-to at
the first segment's start point followed by one cubic-curve command per
segment, every numeric value rendered by `roundNumber` (one decimal
place); when the fitter returns no curves the output is the move-to
plus line-to polyline with rounded values; when the fitter throws the
output is the move-to plus line-to polyline with raw template-literal
values. -/
theorem generatePathData_shape (numStr : ℚ → String)
    (fit : List Point → Except Unit (List CubicBez)) (stroke : List Point)
    (hlen : 2 ≤ stroke.length) :
    (∀ c cs, fit stroke = .ok (c :: cs) →
        generatePathData numStr fit stroke = encodeSpec (c :: cs))
    ∧ (fit stroke = .ok [] →
        generatePathData numStr fit stroke = encodePolylineSpec roundNumber stroke)
    ∧ (∀ e, fit stroke = .error e →
        generatePathData numStr fit stroke = encodePolylineSpec numStr stroke) := by
  match stroke with
  | [] => simp at hlen
  | [_] => simp at hlen
  | s0 :: s1 :: srest =>
      refine ⟨?_, ?_, ?_⟩
      · intro c cs hfit
        simp only [generatePathData, hfit, encodeSpec]
        rw [foldl_append_catMap]
      · intro hfit
        simp only [generatePathData, hfit, encodePolylineSpec]
        rw [foldl_append_catMap]
      · intro e hfit
        simp only [generatePathData, hfit, encodePolylineSpec]
        rw [foldl_append_catMap]

/-- Witness for C3 at a two-point stroke whose fitter returns a single
segment. -/
theorem generatePathData_shape_witness :
    2 ≤ ([((0 : ℚ), (0 : ℚ)), ((3 : ℚ), (3 : ℚ))] : List Point).length
    ∧ generatePathData (fun _ => "")
        (fun _ => .ok [⟨(0, 0), (1, 1), (2, 2), (3, 3)⟩])
        [((0 : ℚ), (0 : ℚ)), ((3 : ℚ), (3 : ℚ))]
      = encodeSpec [⟨(0, 0), (1, 1), (2, 2), (3, 3)⟩] :=
  ⟨by decide,
   (generatePathData_shape (fun _ => "")
      (fun _ => .ok [⟨(0, 0), (1, 1), (2, 2), (3, 3)⟩])
      [((0 : ℚ), (0 : ℚ)), ((3 : ℚ), (3 : ℚ))] (by decide)).1
      ⟨(0, 0), (1, 1), (2, 2), (3, 3)⟩ [] rfl⟩

/-- C9: a stroke with fewer than two points yields the empty path-data
string, whatever the fitter does. -/
theorem generatePathData_short_stroke (numStr : ℚ → String)
    (fit : List Point → Except Unit (List CubicBez)) (stroke : List Point)
    (hlen : stroke.length < 2) :
    generatePathData numStr fit stroke = "" := by
  match stroke with
  | [] => rfl
  | [_] => rfl
  | _ :: _ :: _ =>
      simp at hlen
      omega

/-- Witness for C9 at a one-point stroke. -/
theorem generatePathData_short_stroke_witness :
    ([((5 : ℚ), (5 : ℚ))] : List Point).length < 2
    ∧ generatePathData (fun _ => "") (fun _ => .error ())
        [((5 : ℚ), (5 : ℚ))] = "" :=
  ⟨by decide,
   generatePathData_short_stroke (fun _ => "") (fun _ => .error ())
     [((5 : ℚ), (5 : ℚ))] (by decide)⟩

/-- C4: a string the `isValidSvg` guard rejects makes
`deserializeDocument` return the invalid-document error whatever parser
and transform are plugged in, so no parsing or tree construction is
attempted. -/
theorem deserializeDocument_rejects_invalid {α : Type}
    (parse : String → List α) (transf : α → α) (s : String)
    (hv : isValidSvg s = false) :
    deserializeDocument parse transf s = .error "Invalid SVG string" := by
  simp [deserializeDocument, hv]

/-- Witness for C4 at the string from the specification scenario. -/
theorem deserializeDocument_rejects_invalid_witness :
    isValidSvg "not svg" = false
    ∧ deserializeDocument (fun _ => ([] : List Unit)) (fun a => a) "not svg"
      = .error "Invalid SVG string" :=
  ⟨by decide,
   deserializeDocument_rejects_invalid (fun _ => ([] : List Unit))
     (fun a => a) "not svg" (by decide)⟩

/-- C8: the resize request rewrites only the width and height of the
root; its tag, its passthrough attributes and the whole child list
(hence every descendant node) are returned unchanged, and when the size
string parses the new width and height are the parsed ones. -/
theorem applyResize_only_geometry (doc : SvgDoc) (s : String) :
    (applyResize doc s).tagName = doc.tagName
    ∧ (applyResize doc s).attributes = doc.attributes
    ∧ (applyResize doc s).children = doc.children
    ∧ (∀ sz, parseSizeString s = some sz →
        (applyResize doc s).width = sz.width
        ∧ (applyResize doc s).height = sz.height) := by
  unfold applyResize
  cases hp : parseSizeString s with
  | none => exact ⟨rfl, rfl, rfl, fun sz hsz => by cases hsz⟩
  | some sz0 =>
      refine ⟨rfl, rfl, rfl, fun sz hsz => ?_⟩
      cases hsz
      exact ⟨rfl, rfl⟩

/-- Witness for C8 at a concrete document and the size string 10x20. -/
theorem applyResize_only_geometry_witness :
    ((applyResize ⟨"svg", [("xmlns", "ns")], 360, 360,
        [.node "path" "M 0 0 L 1 1" []]⟩ "10x20").tagName = "svg"
      ∧ (applyResize ⟨"svg", [("xmlns", "ns")], 360, 360,
          [.node "path" "M 0 0 L 1 1" []]⟩ "10x20").attributes = [("xmlns", "ns")]
      ∧ (applyResize ⟨"svg", [("xmlns", "ns")], 360, 360,
          [.node "path" "M 0 0 L 1 1" []]⟩ "10x20").children
        = [.node "path" "M 0 0 L 1 1" []]
      ∧ (∀ sz, parseSizeString "10x20" = some sz →
          (applyResize ⟨"svg", [("xmlns", "ns")], 360, 360,
            [.node "path" "M 0 0 L 1 1" []]⟩ "10x20").width = sz.width
          ∧ (applyResize ⟨"svg", [("xmlns", "ns")], 360, 360,
              [.node "path" "M 0 0 L 1 1" []]⟩ "10x20").height = sz.height)) :=
  applyResize_only_geometry
    ⟨"svg", [("xmlns", "ns")], 360, 360, [.node "path" "M 0 0 L 1 1" []]⟩ "10x20"

/-- C10: whenever the first two `x`-separated fields of the input both
parse as integers under JavaScript `parseInt` semantics (zero and
negative values included), `parseSizeString` returns that width-height
pair rather than null: it enforces no positivity. -/
theorem parseSizeString_accepts_ints (s : String) (w h : Int)
    (h0 : (((jsSplitOnChar 'x' s)[0]?).bind (fun t => jsParseInt (jsTrim t)))
      = some w)
    (h1 : (((jsSplitOnChar 'x' s)[1]?).bind (fun t => jsParseInt (jsTrim t)))
      = some h) :
    parseSizeString s = some ⟨w, h⟩ := by
  unfold parseSizeString
  rw [h0, h1]

/-- Witness for C10 at the zero size 0x0 and the negative size -5x10. -/
theorem parseSizeString_accepts_ints_witness :
    parseSizeString "0x0" = some ⟨0, 0⟩
    ∧ parseSizeString "-5x10" = some ⟨-5, 10⟩ :=
  ⟨parseSizeString_accepts_ints "0x0" 0 0 (by decide) (by decide),
   parseSizeString_accepts_ints "-5x10" (-5) 10 (by decide) (by decide)⟩
